import Mathlib

/-!
Shallow embedding of the core of `src/conn.rs` (mentat's connection and
transaction lifecycle): the `Metadata` triple, `InProgress` write
transactions with their draft partition map and draft schema, the commit
and rollback protocol, `Conn::transact`, and `Conn::cache`.

External collaborators (the SQLite driver, the EDN and transaction
parsers, the lower-level transactor, and the schema type itself) are out
of scope per the specification, so they appear as type parameters and
function parameters: the development is generic in the partition-map type
`PM` and schema type `S`, and theorems quantify over the external
functions. Fallibility of the backing store (commit and rollback can fail
at the SQLite level) is modelled by explicit boolean parameters.
-/

/-- A 64-bit numeric entity identifier, `type Entid = i64` upstream. -/
abbrev Entid := Int

/-- Model of `Arc<T>`: a reference-counted handle. `id` models the identity
of the allocation, so that replacing a handle with a freshly allocated one
(`Arc::new`) is distinguishable from leaving the handle untouched even
when the pointed-to values are equal. -/
structure Arc (α : Type) where
  id : Nat
  val : α
deriving DecidableEq, Repr

/-- Mirror of `struct Metadata` in `conn.rs`: the generation counter, the
partition map, and the shared schema handle, all guarded by one mutex in
the source. -/
structure Metadata (PM S : Type) where
  generation : Nat
  partition_map : PM
  schema : Arc S
deriving DecidableEq, Repr

/-- Mirror of `TxReport` as used by `conn.rs`: the claims only inspect the
transaction id, so the tempid map is elided. -/
structure TxReport where
  tx_id : Entid
deriving DecidableEq, Repr

/-- Error kinds surfaced by the embedded operations, following the spec's
error table (`EdnParse`, `TxParse`, `DbError`, `UnknownAttribute`,
`NotCached`, `Race`, `Backing`). `race` carries the `bail!` message of
`InProgress::commit`. -/
inductive MentatError where
  | ednParse (msg : String)
  | txParse (msg : String)
  | dbError (msg : String)
  | unknownAttribute (text : String)
  | notCached
  | race (msg : String)
  | backing (msg : String)
deriving DecidableEq, Repr

/-- Mirror of `struct InProgress` in `conn.rs`: the snapshotted generation,
the draft partition map, and the draft schema. The `rusqlite::Transaction`
handle, the mutex reference and the cache write-guard carry no metadata
state of their own; their effects appear as explicit parameters of the
operations below. -/
structure InProgress (PM S : Type) where
  generation : Nat
  partition_map : PM
  schema : S
deriving DecidableEq, Repr

/-- The external transactor contract: given the (cloned) partition map, the
current schema and the working schema, return a report, the next partition
map and an optional next schema, or fail. The backing transaction handle,
the entities (resp. terms and tempid set) are already baked into the
function value, since `conn.rs` merely forwards them. -/
def Transactor (PM S : Type) : Type :=
  PM → S → S → Except MentatError (TxReport × PM × Option S)

/-- Mirror of `InProgress::transact_terms`: call the external
`transact_terms` with the cloned draft partition map and the draft schema
passed as BOTH schema arguments; on success install the next partition map
and, when present, the next schema; on error return `self` untouched. -/
def InProgress.transact_terms {PM S : Type} (self : InProgress PM S)
    (transactTermsFn : Transactor PM S) :
    Except MentatError TxReport × InProgress PM S :=
  match transactTermsFn self.partition_map self.schema self.schema with
  | .error e => (.error e, self)
  | .ok (report, next_partition_map, next_schema) =>
      (.ok report,
        { self with
          partition_map := next_partition_map
          schema := next_schema.getD self.schema })

/-- Mirror of `InProgress::transact_entities`: identical shape to
`transact_terms`, delegating to the external `transact` with
`self.partition_map.clone()` and `&self.schema` twice. -/
def InProgress.transact_entities {PM S : Type} (self : InProgress PM S)
    (transactFn : Transactor PM S) :
    Except MentatError TxReport × InProgress PM S :=
  match transactFn self.partition_map self.schema self.schema with
  | .error e => (.error e, self)
  | .ok (report, next_partition_map, next_schema) =>
      (.ok report,
        { self with
          partition_map := next_partition_map
          schema := next_schema.getD self.schema })

set_option linter.unusedVariables false in
/-- Mirror of `InProgress::rollback`: roll the SQLite transaction back
(which can fail at the backing-store level, modelled by `backingOk`); the
`Conn` metadata is never touched. -/
def InProgress.rollback {PM S : Type} (self : InProgress PM S)
    (metadata : Metadata PM S) (backingOk : Bool) :
    Except MentatError Unit × Metadata PM S :=
  ((if backingOk then .ok () else .error (.backing "rollback failed")), metadata)

/-- Outcome of `InProgress::commit`: the returned result, the state of the
mutex-guarded metadata afterwards, whether `self.transaction.commit()` was
invoked at all, and whether it succeeded. -/
structure CommitOutcome (PM S : Type) where
  result : Except MentatError Unit
  metadata : Metadata PM S
  backing_commit_attempted : Bool
  backing_committed : Bool
deriving Repr

/-- Mirror of `InProgress::commit`. Under the metadata mutex: bail with the
race error if the snapshotted generation differs from the current one
(without touching the SQLite transaction); otherwise commit the SQLite
transaction (fallible, modelled by `backingCommitOk`), and only then bump
the generation, move the draft partition map in, and replace the shared
schema handle with a fresh `Arc` (`fresh` models the new allocation's
identity) exactly when the draft schema differs from the published one. -/
def InProgress.commit {PM S : Type} [DecidableEq S] (self : InProgress PM S)
    (metadata : Metadata PM S) (backingCommitOk : Bool) (fresh : Nat) :
    CommitOutcome PM S :=
  if self.generation ≠ metadata.generation then
    { result := .error (.race "Lost the transact() race!")
      metadata := metadata
      backing_commit_attempted := false
      backing_committed := false }
  else if !backingCommitOk then
    { result := .error (.backing "SQLite commit failed")
      metadata := metadata
      backing_commit_attempted := true
      backing_committed := false }
  else
    let bumped : Metadata PM S :=
      { metadata with
        generation := metadata.generation + 1
        partition_map := self.partition_map }
    { result := .ok ()
      metadata :=
        if self.schema ≠ metadata.schema.val then
          { bumped with schema := ⟨fresh, self.schema⟩ }
        else
          bumped
      backing_commit_attempted := true
      backing_committed := true }

/-- Mirror of the metadata snapshot taken by
`Conn::begin_transaction_with_behavior`: copy out the generation, clone the
partition map, and clone the schema out of its shared handle to form the
draft. -/
def Conn.begin_transaction {PM S : Type} (metadata : Metadata PM S) :
    InProgress PM S :=
  { generation := metadata.generation
    partition_map := metadata.partition_map
    schema := metadata.schema.val }

/-- Outcome of `Conn::transact`: the returned result, the metadata
afterwards, and whether a backing-store (SQLite) transaction was begun at
any point during the call. -/
structure TransactOutcome (PM S : Type) where
  result : Except MentatError TxReport
  metadata : Metadata PM S
  begun_backing : Bool
deriving Repr

/-- Mirror of `Conn::transact`: parse the EDN text, parse the entities out
of the EDN value, and only then begin an IMMEDIATE backing-store
transaction (fallible, `beginOk` false models a `Busy` failure),
`transact_entities`, and `commit`. The two parser stages are the external
`edn::parse::value` and `mentat_tx_parser::Tx::parse`; the transactor is
keyed by the parsed entities. A parse failure returns before any
backing-store transaction exists; a transactor or commit failure drops the
`InProgress`, which leaves the metadata as it was. -/
def Conn.transact {PM S EdnV Ents : Type} [DecidableEq S]
    (metadata : Metadata PM S) (text : String)
    (ednParseValue : String → Except MentatError EdnV)
    (txParse : EdnV → Except MentatError Ents)
    (transactFn : Ents → Transactor PM S)
    (beginOk backingCommitOk : Bool) (fresh : Nat) : TransactOutcome PM S :=
  match ednParseValue text with
  | .error e => { result := .error e, metadata := metadata, begun_backing := false }
  | .ok assertion_vector =>
    match txParse assertion_vector with
    | .error e => { result := .error e, metadata := metadata, begun_backing := false }
    | .ok entities =>
      if !beginOk then
        { result := .error (.backing "SQLITE_BUSY"), metadata := metadata
          begun_backing := false }
      else
        let in_progress := Conn.begin_transaction metadata
        match in_progress.transact_entities (transactFn entities) with
        | (.error e, _) =>
            { result := .error e, metadata := metadata, begun_backing := true }
        | (.ok report, in_progress2) =>
            let c := in_progress2.commit metadata backingCommitOk fresh
            match c.result with
            | .error e =>
                { result := .error e, metadata := c.metadata, begun_backing := true }
            | .ok () =>
                { result := .ok report, metadata := c.metadata, begun_backing := true }

/-- A namespaced keyword such as `:foo/bar`. The field `nspace` stands for
the keyword's namespace component. -/
structure NamespacedKeyword where
  nspace : String
  name : String
deriving DecidableEq, Repr

/-- Modelled from the spec: identifiers are "namespaced keywords rendered
textually as `:namespace/name`" (the `Display` impl lives in the external
`edn` crate). This is the `attribute.to_string()` of `Conn::cache`. -/
def NamespacedKeyword.to_string (kw : NamespacedKeyword) : String :=
  ":" ++ kw.nspace ++ "/" ++ kw.name

/-- The two cache actions of `Conn::cache`. -/
inductive CacheAction where
  | register
  | deregister
deriving DecidableEq, Repr

/-- Modelled from the spec: the `AttributeCacher` of the `cache` module is
not under `src/`; the claims only concern which attribute entids are
present, so the cached value storage (eager or lazy value maps) is elided
and the cacher is the set of registered attribute entids. -/
abbrev AttributeCacher : Type := List Entid

/-- Modelled from the spec: "Register is idempotent" — registering an
attribute adds it if absent and leaves the cache unchanged otherwise (the
eager value fetch against SQLite is elided). -/
def AttributeCacher.register_attribute (cache : AttributeCacher) (entid : Entid) :
    Except MentatError AttributeCacher :=
  .ok (if entid ∈ cache then cache else entid :: cache)

/-- Modelled from the spec: "Deregister on absent entid returns
`NotCached`" — deregistering removes a present attribute and fails with
`NotCached` when the attribute is absent, leaving the cache unchanged. -/
def AttributeCacher.deregister_attribute (cache : AttributeCacher) (entid : Entid) :
    Except MentatError Unit × AttributeCacher :=
  if entid ∈ cache then (.ok (), cache.erase entid) else (.error .notCached, cache)

/-- Mirror of `Conn::cache`: look the ident up in the current schema (the
external schema lookup `get_entid` is a parameter), failing with
`UnknownAttribute(attribute.to_string())` when absent; otherwise register
or deregister the entid. Faithful to the source, the `Deregister` arm
discards the return value of `deregister_attribute` (the statement ends in
`;` with no `?`), so its error never propagates. -/
def Conn.cache {S : Type} (schema : S)
    (get_entid : S → NamespacedKeyword → Option Entid)
    (attribute_cache : AttributeCacher) (attr : NamespacedKeyword)
    (cache_action : CacheAction) :
    Except MentatError Unit × AttributeCacher :=
  match get_entid schema attr with
  | none => (.error (.unknownAttribute attr.to_string), attribute_cache)
  | some attribute_entid =>
    match cache_action with
    | .register =>
        match attribute_cache.register_attribute attribute_entid with
        | .error e => (.error e, attribute_cache)
        | .ok cache2 => (.ok (), cache2)
    | .deregister =>
        (.ok (), (attribute_cache.deregister_attribute attribute_entid).2)

/-- Operations a single `Conn`'s writer lifecycle performs, for stating
trace-level invariants: begin a write transaction, transact entities or
terms inside it, and commit or roll back. -/
inductive Op (PM S : Type) where
  | beginTx
  | transactEntities (t : Transactor PM S)
  | transactTerms (t : Transactor PM S)
  | commit (backingCommitOk : Bool) (fresh : Nat)
  | rollback (backingOk : Bool)

/-- The state of a `Conn` together with its at-most-one in-flight write
transaction (`Store` serializes writers, and the metadata mutex plus the
cache write-guard serialize them across threads). -/
structure ConnState (PM S : Type) where
  metadata : Metadata PM S
  in_progress : Option (InProgress PM S)

/-- One step of the writer lifecycle. Operations that need an in-flight
transaction are no-ops without one (and `beginTx` is a no-op while one is
open, since `begin_transaction` takes `&mut self` on both the `Conn` and
the SQLite connection). -/
def ConnState.step {PM S : Type} [DecidableEq S] (s : ConnState PM S) (op : Op PM S) :
    ConnState PM S :=
  match op, s.in_progress with
  | .beginTx, none =>
      { s with in_progress := some (Conn.begin_transaction s.metadata) }
  | .beginTx, some _ => s
  | .transactEntities t, some ip =>
      { s with in_progress := some (ip.transact_entities t).2 }
  | .transactEntities _, none => s
  | .transactTerms t, some ip =>
      { s with in_progress := some (ip.transact_terms t).2 }
  | .transactTerms _, none => s
  | .commit backingCommitOk fresh, some ip =>
      { metadata := (ip.commit s.metadata backingCommitOk fresh).metadata
        in_progress := none }
  | .commit _ _, none => s
  | .rollback backingOk, some ip =>
      { metadata := (ip.rollback s.metadata backingOk).2
        in_progress := none }
  | .rollback _, none => s

/-- Run a sequence of writer operations from a state. -/
def ConnState.run {PM S : Type} [DecidableEq S] (s : ConnState PM S)
    (ops : List (Op PM S)) : ConnState PM S :=
  ops.foldl ConnState.step s

/-- Helper: a failing `commit` leaves the mutex-guarded metadata exactly as
it found it. -/
theorem commit_error_metadata {PM S : Type} [DecidableEq S]
    (ip : InProgress PM S) (md : Metadata PM S) (ok : Bool) (fresh : Nat)
    (e : MentatError) (h : (ip.commit md ok fresh).result = .error e) :
    (ip.commit md ok fresh).metadata = md := by
  unfold InProgress.commit at h ⊢
  split_ifs at h ⊢ <;> simp_all

/-- Helper: a successful `commit` bumps the generation by exactly one. -/
theorem commit_ok_generation {PM S : Type} [DecidableEq S]
    (ip : InProgress PM S) (md : Metadata PM S) (ok : Bool) (fresh : Nat)
    (h : (ip.commit md ok fresh).result = .ok ()) :
    (ip.commit md ok fresh).metadata.generation = md.generation + 1 := by
  unfold InProgress.commit at h ⊢
  split_ifs at h ⊢ <;> simp_all

/-- Helper: `commit` never decreases the generation. -/
theorem commit_generation_le {PM S : Type} [DecidableEq S]
    (ip : InProgress PM S) (md : Metadata PM S) (ok : Bool) (fresh : Nat) :
    md.generation ≤ (ip.commit md ok fresh).metadata.generation := by
  unfold InProgress.commit
  split_ifs <;> simp [Nat.le_succ]

/-- Helper: one lifecycle step never decreases the generation. -/
theorem step_generation_le {PM S : Type} [DecidableEq S]
    (s : ConnState PM S) (op : Op PM S) :
    s.metadata.generation ≤ (s.step op).metadata.generation := by
  cases op <;> cases h : s.in_progress <;>
    simp [ConnState.step, h, InProgress.rollback, commit_generation_le]

/-- Helper: running any operation sequence never decreases the generation. -/
theorem run_generation_le {PM S : Type} [DecidableEq S]
    (ops : List (Op PM S)) (s : ConnState PM S) :
    s.metadata.generation ≤ (s.run ops).metadata.generation := by
  induction ops generalizing s with
  | nil => exact Nat.le_refl _
  | cons op rest ih =>
      exact Nat.le_trans (step_generation_le s op) (ih (s.step op))

/-- Helper: `run` splits over list append. -/
theorem run_append {PM S : Type} [DecidableEq S]
    (s : ConnState PM S) (l1 l2 : List (Op PM S)) :
    s.run (l1 ++ l2) = (s.run l1).run l2 := by
  unfold ConnState.run
  exact List.foldl_append ConnState.step s l1 l2

/-- Helper: running a sequence of in-transaction `transact_entities` steps
from an open transaction keeps the metadata untouched and keeps a
transaction open. -/
theorem run_transacts {PM S : Type} [DecidableEq S]
    (ts : List (Transactor PM S)) (md : Metadata PM S) (ip : InProgress PM S) :
    ∃ ip2, ConnState.run ⟨md, some ip⟩ (ts.map Op.transactEntities)
      = ⟨md, some ip2⟩ := by
  induction ts generalizing ip with
  | nil => exact ⟨ip, rfl⟩
  | cons t rest ih => exact ih (ip.transact_entities t).2

/-- C1: for every successful call to `InProgress::commit`, the metadata
generation after the commit equals the generation before plus exactly 1,
and the generation counter never decreases across any sequence of
lifecycle operations. -/
theorem generation_increment_and_monotone {PM S : Type} [DecidableEq S] :
    (∀ (ip : InProgress PM S) (md : Metadata PM S) (ok : Bool) (fresh : Nat),
      (ip.commit md ok fresh).result = .ok () →
      (ip.commit md ok fresh).metadata.generation = md.generation + 1)
    ∧ (∀ (s : ConnState PM S) (ops : List (Op PM S)),
        s.metadata.generation ≤ (s.run ops).metadata.generation) :=
  ⟨fun ip md ok fresh h => commit_ok_generation ip md ok fresh h,
   fun s ops => run_generation_le ops s⟩

/-- C1 witness: a concrete successful commit at generation 0 yields
generation 1. -/
theorem generation_increment_and_monotone_witness :
    (InProgress.commit (⟨0, 5, 9⟩ : InProgress Nat Nat) ⟨0, 3, ⟨0, 9⟩⟩ true 7).metadata.generation
      = 0 + 1 :=
  (generation_increment_and_monotone).1 ⟨0, 5, 9⟩ ⟨0, 3, ⟨0, 9⟩⟩ true 7 rfl

/-- C2: a commit that returns an error (race or backing-store failure) and
a rollback leave the `Conn`'s metadata exactly as it was; consequently, in
a full lifecycle trace that begins a transaction, transacts any number of
times, and then either rolls back or fails to commit, the final metadata
equals the metadata from before the transaction began. -/
theorem failed_commit_and_rollback_preserve_metadata {PM S : Type} [DecidableEq S] :
    (∀ (ip : InProgress PM S) (md : Metadata PM S) (ok : Bool) (fresh : Nat)
        (e : MentatError),
      (ip.commit md ok fresh).result = .error e →
      (ip.commit md ok fresh).metadata = md)
    ∧ (∀ (ip : InProgress PM S) (md : Metadata PM S) (ok : Bool),
        (ip.rollback md ok).2 = md)
    ∧ (∀ (md : Metadata PM S) (ts : List (Transactor PM S)) (ok : Bool) (fresh : Nat),
        (ConnState.run ⟨md, none⟩
            (Op.beginTx :: (ts.map Op.transactEntities ++ [Op.rollback ok]))).metadata = md
        ∧ (∀ (ip2 : InProgress PM S) (e : MentatError),
            (ConnState.run ⟨md, none⟩
                (Op.beginTx :: ts.map Op.transactEntities)).in_progress = some ip2 →
            (ip2.commit md ok fresh).result = .error e →
            (ConnState.run ⟨md, none⟩
                (Op.beginTx :: (ts.map Op.transactEntities ++ [Op.commit ok fresh]))).metadata
              = md)) := by
  refine ⟨fun ip md ok fresh e h => commit_error_metadata ip md ok fresh e h,
          fun ip md ok => rfl, ?_⟩
  intro md ts ok fresh
  obtain ⟨ip2, hrun⟩ := run_transacts ts md (Conn.begin_transaction md)
  have hcons : ∀ (l : List (Op PM S)),
      ConnState.run ⟨md, none⟩ (Op.beginTx :: l)
        = ConnState.run ⟨md, some (Conn.begin_transaction md)⟩ l := fun l => rfl
  constructor
  · rw [hcons, run_append, hrun]
    rfl
  · intro ip3 e hip he
    rw [hcons, hrun] at hip
    have : ip3 = ip2 := by
      cases hip
      rfl
    subst this
    rw [hcons, run_append, hrun]
    show (ConnState.step ⟨md, some ip3⟩ (Op.commit ok fresh)).metadata = md
    simpa [ConnState.step] using commit_error_metadata ip3 md ok fresh e he

/-- C2 witness: a concrete race-failing commit and a concrete rollback both
leave the metadata untouched. -/
theorem failed_commit_and_rollback_preserve_metadata_witness :
    (InProgress.commit (⟨1, 5, 9⟩ : InProgress Nat Nat) ⟨0, 3, ⟨0, 9⟩⟩ true 7).metadata
      = ⟨0, 3, ⟨0, 9⟩⟩ :=
  (failed_commit_and_rollback_preserve_metadata).1 ⟨1, 5, 9⟩ ⟨0, 3, ⟨0, 9⟩⟩ true 7
    (.race "Lost the transact() race!") rfl

/-- C3: if `transact_entities` (or `transact_terms`) returns an error, the
draft partition map and draft schema of the `InProgress` are exactly as
before the call, and a subsequent rollback still leaves the `Conn`
metadata untouched. -/
theorem transact_error_leaves_draft_unchanged {PM S : Type} :
    ∀ (self : InProgress PM S) (t : Transactor PM S) (e : MentatError),
      ((self.transact_entities t).1 = .error e → (self.transact_entities t).2 = self)
      ∧ ((self.transact_terms t).1 = .error e → (self.transact_terms t).2 = self)
      ∧ (∀ (md : Metadata PM S) (ok : Bool),
          (((self.transact_entities t).2).rollback md ok).2 = md) := by
  intro self t e
  refine ⟨?_, ?_, fun md ok => rfl⟩
  · unfold InProgress.transact_entities
    cases h : t self.partition_map self.schema self.schema <;> simp [h]
  · unfold InProgress.transact_terms
    cases h : t self.partition_map self.schema self.schema <;> simp [h]

/-- C3 witness: a concrete failing transactor leaves a concrete draft
untouched. -/
theorem transact_error_leaves_draft_unchanged_witness :
    (InProgress.transact_entities (⟨0, 5, 9⟩ : InProgress Nat Nat)
        (fun _ _ _ => .error (.dbError "conflicting upsert"))).2 = ⟨0, 5, 9⟩ :=
  (transact_error_leaves_draft_unchanged ⟨0, 5, 9⟩
      (fun _ _ _ => .error (.dbError "conflicting upsert"))
      (.dbError "conflicting upsert")).1 rfl

/-- C4: `commit` fails with the race error if and only if the snapshotted
generation differs from the metadata generation observed under the mutex;
in that failure case the backing-store transaction is never committed (the
SQLite `commit` is not even attempted). -/
theorem commit_race_iff_generation_mismatch {PM S : Type} [DecidableEq S] :
    ∀ (ip : InProgress PM S) (md : Metadata PM S) (ok : Bool) (fresh : Nat),
      ((∃ msg, (ip.commit md ok fresh).result = .error (.race msg))
        ↔ ip.generation ≠ md.generation)
      ∧ (ip.generation ≠ md.generation →
          (ip.commit md ok fresh).backing_commit_attempted = false
          ∧ (ip.commit md ok fresh).backing_committed = false) := by
  intro ip md ok fresh
  unfold InProgress.commit
  split_ifs with h1 h2 <;> simp_all

/-- C4 witness: a concrete generation mismatch yields the race error and no
backing-store commit attempt. -/
theorem commit_race_iff_generation_mismatch_witness :
    (InProgress.commit (⟨1, 5, 9⟩ : InProgress Nat Nat) ⟨0, 3, ⟨0, 9⟩⟩ true 7).backing_commit_attempted
        = false
      ∧ (InProgress.commit (⟨1, 5, 9⟩ : InProgress Nat Nat) ⟨0, 3, ⟨0, 9⟩⟩ true 7).backing_committed
        = false :=
  (commit_race_iff_generation_mismatch ⟨1, 5, 9⟩ ⟨0, 3, ⟨0, 9⟩⟩ true 7).2 (by decide)

/-- C5: `Conn::transact` parses completely before starting any
backing-store transaction: an EDN parse error or a transaction-shape parse
error is returned with the metadata untouched (so no tx id is allocated)
and with no backing-store transaction begun; conversely a backing-store
transaction is only ever begun after both parse stages have succeeded. -/
theorem conn_transact_parses_before_begin {PM S EdnV Ents : Type} [DecidableEq S] :
    ∀ (md : Metadata PM S) (text : String)
      (ednParseValue : String → Except MentatError EdnV)
      (txParse : EdnV → Except MentatError Ents)
      (transactFn : Ents → Transactor PM S)
      (beginOk backingCommitOk : Bool) (fresh : Nat),
      (∀ e, ednParseValue text = .error e →
        Conn.transact md text ednParseValue txParse transactFn beginOk backingCommitOk fresh
          = ⟨.error e, md, false⟩)
      ∧ (∀ v e, ednParseValue text = .ok v → txParse v = .error e →
          Conn.transact md text ednParseValue txParse transactFn beginOk backingCommitOk fresh
            = ⟨.error e, md, false⟩)
      ∧ ((Conn.transact md text ednParseValue txParse transactFn beginOk backingCommitOk
            fresh).begun_backing = true →
          ∃ v ents, ednParseValue text = .ok v ∧ txParse v = .ok ents) := by
  intro md text ednParseValue txParse transactFn beginOk backingCommitOk fresh
  refine ⟨fun e he => by simp [Conn.transact, he], fun v e hv he => by simp [Conn.transact, hv, he], ?_⟩
  intro hb
  unfold Conn.transact at hb
  cases hv : ednParseValue text with
  | error e => simp [hv] at hb
  | ok v =>
    cases he : txParse v with
    | error e => simp [hv, he] at hb
    | ok ents => exact ⟨v, ents, rfl, he⟩

/-- C5 witness: a concrete malformed input is rejected by the EDN stage
with the metadata untouched and no backing transaction. -/
theorem conn_transact_parses_before_begin_witness :
    Conn.transact (⟨0, 3, ⟨0, 9⟩⟩ : Metadata Nat Nat) "[[:db/add"
        (fun _ => .error (.ednParse "missing bracket") : String → Except MentatError Nat)
        (fun _ => .ok 0 : Nat → Except MentatError Nat)
        (fun _ => fun pm _ _ => .ok (⟨1⟩, pm, none)) true true 7
      = ⟨.error (.ednParse "missing bracket"), ⟨0, 3, ⟨0, 9⟩⟩, false⟩ :=
  (conn_transact_parses_before_begin (⟨0, 3, ⟨0, 9⟩⟩ : Metadata Nat Nat) "[[:db/add"
      (fun _ => .error (.ednParse "missing bracket") : String → Except MentatError Nat)
      (fun _ => .ok 0 : Nat → Except MentatError Nat)
      (fun _ => fun pm _ _ => .ok (⟨1⟩, pm, none)) true true 7).1
    (.ednParse "missing bracket") rfl

/-- C6 evaluation: with `:foo/bar` known to the schema (entid 100) but
absent from the attribute cache, `Conn::cache` with `Deregister` returns
`Ok(())` and leaves the cache empty, because the source discards the
return value of `deregister_attribute`; the documented behaviour ("throws
an error if the attribute does not currently exist in the cache") and the
spec's `NotCached` error do not occur. -/
theorem cache_deregister_absent_returns_ok :
    @Conn.cache (List (NamespacedKeyword × Entid)) [(⟨"foo", "bar"⟩, 100)]
        (fun sch kw => (sch.find? (fun p => p.1 = kw)).map Prod.snd)
        [] ⟨"foo", "bar"⟩ CacheAction.deregister
      = (.ok (), []) := by
  rfl

/-- C7: a cache operation (either action) on an ident with no entry in the
current schema fails with `UnknownAttribute` carrying the ident's textual
rendering, and leaves the attribute cache unchanged. -/
theorem cache_unknown_attribute {S : Type} :
    ∀ (schema : S) (get_entid : S → NamespacedKeyword → Option Entid)
      (attribute_cache : AttributeCacher) (attr : NamespacedKeyword)
      (cache_action : CacheAction),
      get_entid schema attr = none →
      Conn.cache schema get_entid attribute_cache attr cache_action
        = (.error (.unknownAttribute attr.to_string), attribute_cache) := by
  intro schema get_entid attribute_cache attr cache_action h
  simp [Conn.cache, h]

/-- C7 witness: the unknown ident `:foo/bat` yields
`UnknownAttribute(":foo/bat")` and an unchanged cache. -/
theorem cache_unknown_attribute_witness :
    @Conn.cache (List (NamespacedKeyword × Entid)) [(⟨"foo", "bar"⟩, 100)]
        (fun sch kw => (sch.find? (fun p => p.1 = kw)).map Prod.snd)
        [100] ⟨"foo", "bat"⟩ CacheAction.register
      = (.error (.unknownAttribute ":foo/bat"), [100]) :=
  cache_unknown_attribute [(⟨"foo", "bar"⟩, 100)]
    (fun sch kw => (sch.find? (fun p => p.1 = kw)).map Prod.snd)
    [100] ⟨"foo", "bat"⟩ CacheAction.register (by rfl)

/-- C8: during a successful commit with a fresh handle identity, the shared
schema handle is replaced with a new snapshot of the draft exactly when
the draft schema differs from the published one; when they are equal the
handle is left untouched, while the generation and partition map are
updated either way. -/
theorem commit_schema_replacement_iff_changed {PM S : Type} [DecidableEq S] :
    ∀ (ip : InProgress PM S) (md : Metadata PM S) (fresh : Nat),
      ip.generation = md.generation → fresh ≠ md.schema.id →
      (ip.commit md true fresh).result = .ok ()
      ∧ (ip.commit md true fresh).metadata.generation = md.generation + 1
      ∧ (ip.commit md true fresh).metadata.partition_map = ip.partition_map
      ∧ ((ip.commit md true fresh).metadata.schema ≠ md.schema ↔ ip.schema ≠ md.schema.val)
      ∧ (ip.schema = md.schema.val → (ip.commit md true fresh).metadata.schema = md.schema)
      ∧ (ip.schema ≠ md.schema.val →
          (ip.commit md true fresh).metadata.schema = ⟨fresh, ip.schema⟩) := by
  intro ip md fresh hgen hfresh
  unfold InProgress.commit
  by_cases hs : ip.schema = md.schema.val
  · simp_all
  · have hne : ({ id := fresh, val := ip.schema } : Arc S) ≠ md.schema := fun hEq =>
      hfresh (congrArg Arc.id hEq)
    simp_all

/-- C8 witness: a concrete commit with a changed draft schema installs a
new handle carrying the draft; generation and partition map advance. -/
theorem commit_schema_replacement_iff_changed_witness :
    (InProgress.commit (⟨0, 5, 9⟩ : InProgress Nat Nat) ⟨0, 3, ⟨0, 8⟩⟩ true 7).metadata.schema
      = ⟨7, 9⟩ :=
  (commit_schema_replacement_iff_changed ⟨0, 5, 9⟩ ⟨0, 3, ⟨0, 8⟩⟩ 7 rfl
      (by decide)).2.2.2.2.2 (by decide)

/-- C9: `InProgress` holds a single schema value: `transact_entities` and
`transact_terms` invoke the external transactor with the draft schema as
both the current-schema and the working-schema argument, so two
transactors agreeing on those diagonal arguments are indistinguishable;
moreover, after a call in which the transactor returned a changed schema,
the draft the next call will pass (as both arguments) is that mutated
schema. -/
theorem transactor_receives_draft_schema_twice {PM S : Type} :
    ∀ (self : InProgress PM S) (t u : Transactor PM S),
      (t self.partition_map self.schema self.schema
          = u self.partition_map self.schema self.schema →
        self.transact_entities t = self.transact_entities u
        ∧ self.transact_terms t = self.transact_terms u)
      ∧ (∀ (report : TxReport) (npm : PM) (s2 : S),
          t self.partition_map self.schema self.schema = .ok (report, npm, some s2) →
          ((self.transact_entities t).2).schema = s2) := by
  intro self t u
  constructor
  · intro h
    constructor
    · unfold InProgress.transact_entities
      rw [h]
    · unfold InProgress.transact_terms
      rw [h]
  · intro report npm s2 h
    simp [InProgress.transact_entities, h]

/-- C9 witness: a concrete schema-changing transactor leaves a draft whose
schema is the transactor's output, ready to be passed twice to the next
call. -/
theorem transactor_receives_draft_schema_twice_witness :
    (InProgress.transact_entities (⟨0, 5, 9⟩ : InProgress Nat Nat)
        (fun pm a b => .ok (⟨1⟩, pm, some (a + b)))).2.schema = 18 :=
  (transactor_receives_draft_schema_twice ⟨0, 5, 9⟩
      (fun pm a b => .ok (⟨1⟩, pm, some (a + b)))
      (fun pm a b => .ok (⟨1⟩, pm, some (a + b)))).2 ⟨1⟩ 5 18 rfl

/-- C10: a successful `transact_entities` call in which the transactor
returns no new schema leaves the draft schema exactly as it was and
replaces only the draft partition map. -/
theorem transact_no_schema_change_keeps_draft {PM S : Type} :
    ∀ (self : InProgress PM S) (t : Transactor PM S) (report : TxReport) (npm : PM),
      t self.partition_map self.schema self.schema = .ok (report, npm, none) →
      self.transact_entities t = (.ok report, { self with partition_map := npm }) := by
  intro self t report npm h
  simp [InProgress.transact_entities, h]

/-- C10 witness: a concrete schema-preserving transactor replaces only the
partition map. -/
theorem transact_no_schema_change_keeps_draft_witness :
    InProgress.transact_entities (⟨0, 5, 9⟩ : InProgress Nat Nat)
        (fun pm _ _ => .ok (⟨1⟩, pm + 1, none))
      = (.ok ⟨1⟩, ⟨0, 6, 9⟩) :=
  transact_no_schema_change_keeps_draft ⟨0, 5, 9⟩
    (fun pm _ _ => .ok (⟨1⟩, pm + 1, none)) ⟨1⟩ 6 rfl
